import Mathlib

set_option maxRecDepth 8000

/-!
Shallow embedding of the streaming-response consumption pipeline of the
ruska-cli repository (stream-service.ts, stream types, error-handler.ts,
formatter.ts, and the JSON-mode chat loop), together with proofs settling
the frozen claims about it.

JavaScript runtime values (the `unknown` results of JSON.parse and the
dynamic payloads flowing through the pipeline) are modelled by the
inductive type JsValue below; machine strings are Lean strings (one Char
per code point), and the byte stream is modelled above the UTF-8 decoder,
as lists of characters.
-/

/-- Model of a JavaScript runtime value: everything JSON.parse can return,
plus `undefined`. Numbers are modelled as integers (no claim depends on
fractional values). -/
inductive JsValue where
  | undef
  | null
  | bool (b : Bool)
  | num (n : Int)
  | str (s : String)
  | arr (elems : List JsValue)
  | obj (fields : List (String × JsValue))

/-- Strict equality `v === null`. -/
def jsIsNull : JsValue → Bool
  | .null => true
  | _ => false

/-- Strict equality `v === true`. -/
def jsIsTrue : JsValue → Bool
  | .bool b => b
  | _ => false

/-- Strict equality `v === "<literal>"` against a string literal. -/
def jsStrEq : JsValue → String → Bool
  | .str t, s => t == s
  | _, _ => false

/-- Property lookup `v[key]` for the values JSON.parse produces: on a plain
object it returns the named field, on everything else (including arrays,
whose own keys are numeric) it returns `undefined`. -/
def jsLookup : JsValue → String → JsValue
  | .obj fields, key =>
    match fields.lookup key with
    | some v => v
    | none => .undef
  | _, _ => (.undef)

/-- Model of the JavaScript test `typeof v === 'object'`: true exactly for
`null`, arrays and plain objects. -/
def isObjectType : JsValue → Bool
  | .null => true
  | .arr _ => true
  | .obj _ => true
  | _ => false

/-- JavaScript truthiness of a value. -/
def jsTruthy : JsValue → Bool
  | .undef => false
  | .null => false
  | .bool b => b
  | .num n => !(n == 0)
  | .str s => !(s == "")
  | .arr _ => true
  | .obj _ => true

/-- Indexing `v[i]` with a numeric index, for values on which JavaScript
does not throw (the caller handles `undefined`/`null` separately): array
element, string code point, object field named by the decimal index, and
`undefined` on the remaining primitives. -/
def jsIndexVal : JsValue → Nat → JsValue
  | .arr elems, i => elems.getD i .undef
  | .str s, i =>
    match s.data.get? i with
    | some c => .str (String.mk [c])
    | none => .undef
  | .obj fields, i =>
    match fields.lookup (toString i) with
    | some v => v
    | none => .undef
  | _, _ => (.undef)

/-- Model of `v[0]` without optional chaining: `none` models the TypeError
JavaScript throws when `v` is `undefined` or `null`. -/
def jsIndex0 : JsValue → Option JsValue
  | .undef => none
  | .null => none
  | v => some (jsIndexVal v 0)

/-- Model of the optional chain `v?.key`: `undefined` when `v` is
`undefined` or `null`, plain property lookup otherwise. -/
def jsOptField (v : JsValue) (key : String) : JsValue :=
  match v with
  | .undef => .undef
  | .null => .undef
  | _ => jsLookup v key

/-- Model of the plain access `v.key`: `none` models the TypeError thrown
when `v` is `undefined` or `null`. -/
def jsField : JsValue → String → Option JsValue
  | .undef, _ => none
  | .null, _ => none
  | v, key => some (jsLookup v key)

/-! Stream types (source file of `isDistributedResponse`,
`isDistributedError`, `extractContent` and the `[DONE]` marker). -/

/-- Special SSE marker from the distributed stream (source constant
`STREAM_DONE_MARKER`). -/
def STREAM_DONE_MARKER : String := "[DONE]"

/-- Type guard for the distributed response, with strict validation of
`thread_id` (source `isDistributedResponse`). String length is modelled as
code-point count. -/
def isDistributedResponse (data : JsValue) : Bool :=
  if !(isObjectType data) || jsIsNull data then false
  else if !(jsIsTrue (jsLookup data "distributed")) then false
  else
    match jsLookup data "thread_id" with
    | .str threadId =>
      if threadId.length = 0 || threadId.length > 256 then false else true
    | _ => false

/-- Type guard for the distributed error format (source
`isDistributedError`): a non-null object whose `error` field is a string. -/
def isDistributedError (data : JsValue) : Bool :=
  if !(isObjectType data) || jsIsNull data then false
  else
    match jsLookup data "error" with
    | .str _ => true
    | _ => false

/-- Text-content extraction from a message payload (source
`extractContent`): a string is returned unchanged, otherwise the code
evaluates the optional chain `content?.[0]?.text`. -/
def extractContent : JsValue → JsValue
  | .str s => .str s
  | .undef => .undef
  | .null => .undef
  | content =>
    match jsIndexVal content 0 with
    | .undef => .undef
    | .null => .undef
    | first => jsLookup first "text"

/-! Error classifier (source file error-handler.ts). -/

/-- Error taxonomy codes (source type `ErrorCode`). -/
inductive ErrorCode where
  | AUTH_FAILED
  | NETWORK_ERROR
  | RATE_LIMITED
  | TIMEOUT
  | SERVER_ERROR
  | STREAM_INTERRUPTED
deriving DecidableEq

/-- Structured error mapping returned by the classifier (source type
`ErrorMapping`). -/
structure ErrorMapping where
  code : ErrorCode
  message : String
  recoverable : Bool
  exitCode : Nat
deriving DecidableEq

/-- Exit codes for scripting (source constant object `exitCodes`). -/
structure ExitCodeTable where
  success : Nat
  networkError : Nat
  authFailed : Nat
  rateLimited : Nat
  timeout : Nat
  serverError : Nat

/-- Exit code table of the source. -/
def exitCodes : ExitCodeTable :=
  { success := 0
    networkError := 1
    authFailed := 2
    rateLimited := 3
    timeout := 4
    serverError := 5 }

/-- Model of the `unknown` error argument of `classifyError`: either an
`Error` instance carrying its `name` and `message`, or any non-Error
value. -/
inductive JsError where
  | err (name : String) (message : String)
  | nonError
deriving DecidableEq

/-- Model of `String.prototype.toLowerCase` (ASCII case folding). -/
def jsToLower (s : String) : String := String.mk (s.data.map Char.toLower)

/-- Character-list substring search used to model
`String.prototype.includes`. -/
def charsContain (pat : List Char) : List Char → Bool
  | [] => pat.isEmpty
  | c :: rest => pat.isPrefixOf (c :: rest) || charsContain pat rest

/-- Model of `s.includes(pat)`. -/
def jsIncludes (s pat : String) : Bool := charsContain pat.data s.data

/-- Mapping returned for authentication failures. -/
def authFailedMapping : ErrorMapping :=
  { code := .AUTH_FAILED
    message := "Authentication failed. Run `ruska auth` to reconfigure."
    recoverable := false
    exitCode := exitCodes.authFailed }

/-- Mapping returned for rate limiting. -/
def rateLimitedMapping : ErrorMapping :=
  { code := .RATE_LIMITED
    message := "Rate limit exceeded. Please wait before retrying."
    recoverable := true
    exitCode := exitCodes.rateLimited }

/-- Mapping returned for a server error detected from the status code. -/
def serverStatusMapping (statusCode : Int) : ErrorMapping :=
  { code := .SERVER_ERROR
    message := "Server error (HTTP " ++ toString statusCode ++ "). Please try again later."
    recoverable := true
    exitCode := exitCodes.serverError }

/-- Mapping returned for network failures detected from the message. -/
def networkErrorMapping : ErrorMapping :=
  { code := .NETWORK_ERROR
    message := "Unable to connect to server. Check your network and host configuration."
    recoverable := false
    exitCode := exitCodes.networkError }

/-- Mapping returned for timeouts and aborts. -/
def timeoutMapping : ErrorMapping :=
  { code := .TIMEOUT
    message := "Request timed out. The server may be overloaded."
    recoverable := true
    exitCode := exitCodes.timeout }

/-- Mapping returned for a server error detected from the message. -/
def serverMessageMapping (message : String) : ErrorMapping :=
  { code := .SERVER_ERROR
    message := "Server error: " ++ message
    recoverable := true
    exitCode := exitCodes.serverError }

/-- Default mapping (catch-all). -/
def streamInterruptedMapping (message : String) : ErrorMapping :=
  { code := .STREAM_INTERRUPTED
    message := message
    recoverable := false
    exitCode := exitCodes.networkError }

/-- Status-code based classification, tried first (source `classifyError`,
first block). -/
def statusFirst : Option Int → Option ErrorMapping
  | some statusCode =>
    if statusCode = 401 ∨ statusCode = 403 then some authFailedMapping
    else if statusCode = 429 then some rateLimitedMapping
    else if 500 ≤ statusCode then some (serverStatusMapping statusCode)
    else none
  | none => none

/-- Message-based classification of the error value (source
`classifyError`, `instanceof Error` block and default). -/
def classifyFromError : JsError → ErrorMapping
  | .err errorName message =>
    if jsIncludes (jsToLower message) "fetch failed" ||
        jsIncludes (jsToLower message) "econnrefused" ||
        jsIncludes (jsToLower message) "network" ||
        jsIncludes (jsToLower message) "enotfound" then
      networkErrorMapping
    else if jsIncludes (jsToLower message) "401" ||
        jsIncludes (jsToLower message) "unauthorized" then
      authFailedMapping
    else if jsIncludes (jsToLower message) "429" ||
        jsIncludes (jsToLower message) "rate limit" then
      rateLimitedMapping
    else if errorName = "AbortError" || jsIncludes (jsToLower message) "timeout" ||
        jsIncludes (jsToLower message) "aborted" then
      timeoutMapping
    else if jsIncludes (jsToLower message) "500" || jsIncludes (jsToLower message) "502" ||
        jsIncludes (jsToLower message) "503" then
      serverMessageMapping message
    else
      streamInterruptedMapping message
  | .nonError => streamInterruptedMapping "Unknown error occurred"

/-- Map raw errors to structured error responses (source `classifyError`):
the status code, when present and matching, wins; otherwise the message is
inspected. -/
def classifyError (error : JsError) (statusCode : Option Int) : ErrorMapping :=
  match statusFirst statusCode with
  | some mapping => mapping
  | none => classifyFromError error

/-! Model of the JavaScript builtin `JSON.parse`, as a fuel-indexed
recursive-descent parser over the character list of the input. It covers
strict JSON with integer numbers; fractional and exponent forms are
rejected (no claim involves them). A later duplicate object key overrides
an earlier one, as in JavaScript. -/

/-- Skip JSON whitespace. -/
def skipWs : List Char → List Char
  | c :: rest =>
    if c = ' ' ∨ c = '\n' ∨ c = '\t' ∨ c = '\r' then skipWs rest else c :: rest
  | [] => []

/-- Value of one hexadecimal digit. -/
def hexVal (c : Char) : Option Nat :=
  if c.isDigit then some (c.toNat - 48)
  else if 'a' ≤ c ∧ c ≤ 'f' then some (c.toNat - 87)
  else if 'A' ≤ c ∧ c ≤ 'F' then some (c.toNat - 55)
  else none

/-- Numeric value of a list of decimal digits. -/
def digitsToNat (ds : List Char) : Nat :=
  ds.foldl (fun acc c => acc * 10 + (c.toNat - 48)) 0

/-- Parse a JSON number (integer forms only; a following `.`, `e` or `E`
makes the model reject the input). -/
def parseJsonNumber (input : List Char) : Option (JsValue × List Char) :=
  let core := fun (neg : Bool) (rest : List Char) =>
    let ds := rest.takeWhile Char.isDigit
    let rest2 := rest.dropWhile Char.isDigit
    if ds.isEmpty then none
    else
      match rest2 with
      | '.' :: _ => none
      | 'e' :: _ => none
      | 'E' :: _ => none
      | _ =>
        let n : Int := Int.ofNat (digitsToNat ds)
        some (JsValue.num (if neg then -n else n), rest2)
  match input with
  | '-' :: rest => core true rest
  | _ => core false input

/-- Parse the remainder of a JSON string literal (the opening quote is
already consumed), accumulating decoded characters in reverse. -/
def parseJsonStr : Nat → List Char → List Char → Option (String × List Char)
  | 0, _, _ => none
  | _ + 1, [], _ => none
  | fuel + 1, c :: rest, acc =>
    if c = '"' then some (String.mk acc.reverse, rest)
    else if c = '\\' then
      match rest with
      | [] => none
      | esc :: rest2 =>
        if esc = '"' then parseJsonStr fuel rest2 ('"' :: acc)
        else if esc = '\\' then parseJsonStr fuel rest2 ('\\' :: acc)
        else if esc = '/' then parseJsonStr fuel rest2 ('/' :: acc)
        else if esc = 'n' then parseJsonStr fuel rest2 ('\n' :: acc)
        else if esc = 't' then parseJsonStr fuel rest2 ('\t' :: acc)
        else if esc = 'r' then parseJsonStr fuel rest2 ('\r' :: acc)
        else if esc = 'b' then parseJsonStr fuel rest2 (Char.ofNat 8 :: acc)
        else if esc = 'f' then parseJsonStr fuel rest2 (Char.ofNat 12 :: acc)
        else if esc = 'u' then
          match rest2 with
          | h1 :: h2 :: h3 :: h4 :: rest3 =>
            match hexVal h1, hexVal h2, hexVal h3, hexVal h4 with
            | some a, some b, some c2, some d =>
              parseJsonStr fuel rest3 (Char.ofNat (((a * 16 + b) * 16 + c2) * 16 + d) :: acc)
            | _, _, _, _ => none
          | _ => none
        else none
    else if c.toNat < 32 then none
    else parseJsonStr fuel rest (c :: acc)

mutual

/-- Parse one JSON value from the input (which starts at a non-space
character). -/
def parseJsonValue : Nat → List Char → Option (JsValue × List Char)
  | 0, _ => none
  | _ + 1, [] => none
  | fuel + 1, c :: rest =>
    if c = '{' then parseJsonMembers fuel (skipWs rest) true []
    else if c = '[' then parseJsonElems fuel (skipWs rest) true []
    else if c = '"' then
      match parseJsonStr (fuel + 1) rest [] with
      | some (s, rest2) => some (.str s, rest2)
      | none => none
    else if c = 't' then
      if rest.take 3 = ['r', 'u', 'e'] then some (.bool true, rest.drop 3) else none
    else if c = 'f' then
      if rest.take 4 = ['a', 'l', 's', 'e'] then some (.bool false, rest.drop 4) else none
    else if c = 'n' then
      if rest.take 3 = ['u', 'l', 'l'] then some (.null, rest.drop 3) else none
    else if c = '-' ∨ c.isDigit then parseJsonNumber (c :: rest)
    else none

/-- Parse the elements of a JSON array (the opening bracket is already
consumed, whitespace skipped). -/
def parseJsonElems : Nat → List Char → Bool → List JsValue → Option (JsValue × List Char)
  | 0, _, _, _ => none
  | _ + 1, [], _, _ => none
  | fuel + 1, c :: rest, isFirst, acc =>
    if c = ']' then
      if isFirst then some (.arr acc.reverse, rest) else none
    else
      match parseJsonValue fuel (skipWs (c :: rest)) with
      | none => none
      | some (v, rest2) =>
        match skipWs rest2 with
        | ',' :: rest3 => parseJsonElems fuel (skipWs rest3) false (v :: acc)
        | ']' :: rest3 => some (.arr (v :: acc).reverse, rest3)
        | _ => none

/-- Parse the members of a JSON object (the opening brace is already
consumed, whitespace skipped). A later duplicate key overrides an earlier
one, matching JavaScript. -/
def parseJsonMembers : Nat → List Char → Bool → List (String × JsValue) →
    Option (JsValue × List Char)
  | 0, _, _, _ => none
  | _ + 1, [], _, _ => none
  | fuel + 1, c :: rest, isFirst, acc =>
    if c = '}' then
      if isFirst then some (.obj acc.reverse, rest) else none
    else if c = '"' then
      match parseJsonStr (fuel + 1) rest [] with
      | none => none
      | some (key, rest2) =>
        match skipWs rest2 with
        | ':' :: rest3 =>
          match parseJsonValue fuel (skipWs rest3) with
          | none => none
          | some (v, rest4) =>
            let acc2 := (key, v) :: acc.filter (fun kv => !(kv.1 == key))
            match skipWs rest4 with
            | ',' :: rest5 => parseJsonMembers fuel (skipWs rest5) false acc2
            | '}' :: rest5 => some (.obj acc2.reverse, rest5)
            | _ => none
        | _ => none
    else none

end

/-- Model of `JSON.parse`: parse one value and require only whitespace to
remain. `none` models the SyntaxError throw. -/
def jsonParse (s : String) : Option JsValue :=
  match parseJsonValue (2 * s.data.length + 2) (skipWs s.data) with
  | some (v, rest) => if (skipWs rest).isEmpty then some v else none
  | none => none

/-! Stream events and the SSE decoders (source file stream-service.ts). -/

/-- Decoded stream event. The source builds `{type, payload}` records (with
a type assertion) from dynamic data, so both fields are modelled as raw
JavaScript values. -/
structure StreamEvent where
  type : JsValue
  payload : JsValue

/-- Model of the array destructuring `const [type, payload] = parsed`:
arrays destructure by position (missing elements become `undefined`),
strings destructure by code point, and every other value is not iterable,
so `none` models the TypeError throw. -/
def destructure2 : JsValue → Option (JsValue × JsValue)
  | .arr elems => some (elems.getD 0 .undef, elems.getD 1 .undef)
  | .str s =>
    match s.data with
    | [] => some (.undef, .undef)
    | [c] => some (.str (String.mk [c]), .undef)
    | c1 :: c2 :: _ => some (.str (String.mk [c1]), .str (String.mk [c2]))
  | _ => none

/-- Decode one synchronous-mode SSE data payload (source `parseEvent`): the
whole body is wrapped in try/catch, so a JSON parse failure or a failing
destructuring yields `none` (skip) rather than an exception. -/
def parseEvent (data : String) : Option StreamEvent :=
  match jsonParse data with
  | none => none
  | some parsed =>
    match destructure2 parsed with
    | none => none
    | some (t, p) => some ⟨t, p⟩

/-- Decode one distributed-mode SSE data payload (source
`parseDistributedEvent`): the `{error: string}` shape becomes an `error`
event, arrays of length at least two destructure positionally, and every
other shape or a JSON parse failure yields `none` (skip). -/
def parseDistributedEvent (data : String) : Option StreamEvent :=
  match jsonParse data with
  | none => none
  | some parsed =>
    if isDistributedError parsed then
      some ⟨.str "error", .obj [("message", jsLookup parsed "error")]⟩
    else
      match parsed with
      | .arr elems =>
        if 2 ≤ elems.length then some ⟨elems.getD 0 .undef, elems.getD 1 .undef⟩
        else none
      | _ => none

/-! Line reassembly (source `extractEvents`, `extractDistributedEvents`,
`parseEventStream`, `parseDistributedEventStream`). The buffer is a
character list; `buffer.split('\n')` is modelled by `splitOnNl` and
`buffer.endsWith('\n')` by `endsWithNl`. The truthiness test
`line.trim() === ''` is modelled by `allWs` (a string trims to empty
exactly when all its characters are whitespace). -/

/-- Whitespace test for the characters relevant to this protocol (the
model of `trim`-to-empty). -/
def isWsChar (c : Char) : Bool := c = ' ' ∨ c = '\n' ∨ c = '\r' ∨ c = '\t'

/-- Model of the truthiness test on `s.trim()`: true when every character
is whitespace (the trimmed string is empty). -/
def allWs (l : List Char) : Bool := l.all isWsChar

/-- Model of `buffer.split('\n')`: the segments between newline characters,
in order; always nonempty. -/
def splitOnNl : List Char → List (List Char)
  | [] => [[]]
  | c :: rest =>
    if c = '\n' then [] :: splitOnNl rest
    else
      match splitOnNl rest with
      | [] => [[c]]
      | h :: t => (c :: h) :: t

/-- Model of `buffer.endsWith('\n')`. -/
def endsWithNl : List Char → Bool
  | [] => false
  | [c] => c = '\n'
  | _ :: c :: rest => endsWithNl (c :: rest)

/-- The character list of the SSE data-line marker `'data: '`. -/
def dataMarker : List Char := "data: ".data

/-- Per-line handling of the synchronous extraction loop (source
`extractEvents` body): skip blank separator lines, decode `data: ` lines,
ignore everything else. -/
def syncLineEvents (line : List Char) : List StreamEvent :=
  if allWs line then []
  else if dataMarker.isPrefixOf line then
    match parseEvent (String.mk (line.drop 6)) with
    | some e => [e]
    | none => []
  else []

/-- Per-line handling of the distributed extraction loop (source
`extractDistributedEvents` body): skip blank lines and keep-alive comments,
turn the `[DONE]` marker into a `done` event, decode other `data: ` lines,
ignore everything else. -/
def distLineEvents (line : List Char) : List StreamEvent :=
  if allWs line then []
  else if line.head? = some ':' then []
  else if dataMarker.isPrefixOf line then
    let data := line.drop 6
    if data = STREAM_DONE_MARKER.data then [⟨.str "done", .undef⟩]
    else
      match parseDistributedEvent (String.mk data) with
      | some e => [e]
      | none => []
  else []

/-- The split-line loop shared by both extraction functions: every line is
processed except that the final one, when the buffer did not end with a
newline, is kept back as the remaining partial line. -/
def processStreamLines (lineEvents : List Char → List StreamEvent) (endsNl : Bool) :
    List (List Char) → List StreamEvent × List Char
  | [] => ([], [])
  | [line] => if endsNl then (lineEvents line, []) else ([], line)
  | line :: next :: rest =>
    let r := processStreamLines lineEvents endsNl (next :: rest)
    (lineEvents line ++ r.1, r.2)

/-- Extract complete events from the synchronous-mode buffer (source
`extractEvents`): the parsed events of the complete lines, and the
remaining partial line. -/
def extractEvents (buffer : List Char) : List StreamEvent × List Char :=
  processStreamLines syncLineEvents (endsWithNl buffer) (splitOnNl buffer)

/-- Extract complete events from the distributed-mode buffer (source
`extractDistributedEvents`). -/
def extractDistributedEvents (buffer : List Char) : List StreamEvent × List Char :=
  processStreamLines distLineEvents (endsWithNl buffer) (splitOnNl buffer)

/-- Drive the synchronous session loop (source `parseEventStream`) over a
list of decoded chunks: append each chunk to the buffer, extract complete
events, carry the remainder, and flush a trailing non-blank partial line
with an added newline at end of stream. -/
def parseEventStreamGo : List Char → List (List Char) → List StreamEvent
  | buffer, [] =>
    if allWs buffer then [] else (extractEvents (buffer ++ ['\n'])).1
  | buffer, chunk :: chunks =>
    let r := extractEvents (buffer ++ chunk)
    r.1 ++ parseEventStreamGo r.2 chunks

/-- The full synchronous event sequence produced for a chunked stream
(source `parseEventStream`, starting from an empty buffer). -/
def parseEventStream (chunks : List (List Char)) : List StreamEvent :=
  parseEventStreamGo [] chunks

/-- Truncate an extracted event list at the first `done` event (source loop
`for (const event of result.parsed) { if (event.type === 'done') return;
yield event; }`): the events before the first `done`, and whether a `done`
was seen (terminating the generator). -/
def takeUntilDone : List StreamEvent → List StreamEvent × Bool
  | [] => ([], false)
  | e :: rest =>
    if jsStrEq e.type "done" then ([], true)
    else
      let r := takeUntilDone rest
      (e :: r.1, r.2)

/-- Drive the distributed session loop (source
`parseDistributedEventStream`): like the synchronous loop, but the
generator returns as soon as a `done` event is decoded, yielding neither it
nor anything after it. -/
def parseDistributedEventStreamGo : List Char → List (List Char) → List StreamEvent
  | buffer, [] =>
    if allWs buffer then []
    else (takeUntilDone (extractDistributedEvents (buffer ++ ['\n'])).1).1
  | buffer, chunk :: chunks =>
    let r := extractDistributedEvents (buffer ++ chunk)
    let t := takeUntilDone r.1
    if t.2 then t.1 else t.1 ++ parseDistributedEventStreamGo r.2 chunks

/-- The full distributed event sequence produced for a chunked stream
(source `parseDistributedEventStream`, starting from an empty buffer). -/
def parseDistributedEventStream (chunks : List (List Char)) : List StreamEvent :=
  parseDistributedEventStreamGo [] chunks

/-! Distributed-mode handshake (source `handleDistributedMode`). -/

/-- Outcome of handling an HTTP 202 response body, collapsing the control
flow of the source: which error is thrown, or that the second GET request
to the thread-stream endpoint is issued. -/
inductive DistHandshakeOutcome where
  | malformedResponse (message : String)
  | abortError
  | threadStreamRequest (threadId : String)
deriving DecidableEq

/-- The `thread_id` field of a validated distributed response. -/
def jsThreadId (v : JsValue) : String :=
  match jsLookup v "thread_id" with
  | .str s => s
  | _ => ""

/-- Model of `handleDistributedMode` on the 202 response body: parse strict
JSON (throw MalformedDistributedResponse on failure), validate with
`isDistributedResponse` (throw on failure), check for a prior abort, and
only then issue the GET request to the thread stream. -/
def handleDistributedMode (rawText : String) (alreadyAborted : Bool) : DistHandshakeOutcome :=
  match jsonParse rawText with
  | none => .malformedResponse "Invalid JSON in distributed response"
  | some data =>
    if !(isDistributedResponse data) then
      .malformedResponse "Invalid distributed response: missing or invalid thread_id"
    else if alreadyAborted then .abortError
    else .threadStreamRequest (jsThreadId data)

/-! Output formatter and the JSON-mode chat loop (source files formatter.ts
and the chat command). -/

/-- One NDJSON output record (source types ChunkOutput, DoneOutput,
ErrorOutput as produced by OutputFormatter). -/
inductive OutputRecord where
  | chunk (content : JsValue)
  | done (response : JsValue)
  | error (code : ErrorCode) (message : JsValue)

/-- Test for a `done` output record. -/
def isDoneRecord : OutputRecord → Bool
  | .done _ => true
  | _ => false

/-- The placeholder response emitted when no `values` event was received
(source `formatter.done({messages: []})`). -/
def placeholderDone : JsValue := .obj [("messages", .arr [])]

/-- Model of the event loop of `runJsonMode` (the part after a successful
`connect`): fold over the received events, keeping the last `values`
payload, emitting a chunk record for each truthy extracted text, stopping
with an error record and exit code 5 on an `error` event, and otherwise
ending with one `done` record and exit code 0. `Except.error ()` models a
TypeError thrown inside the loop (caught by the enclosing try/catch, out of
scope here). -/
def runJsonModeLoop : Option JsValue → List StreamEvent → Except Unit (List OutputRecord × Nat)
  | finalResponse, [] =>
    .ok ([.done (finalResponse.getD placeholderDone)], exitCodes.success)
  | finalResponse, event :: rest =>
    if jsStrEq event.type "messages" then
      match jsIndex0 event.payload with
      | none => .error ()
      | some first =>
        let text := extractContent (jsOptField first "content")
        let out := if jsTruthy text then [OutputRecord.chunk text] else []
        match runJsonModeLoop finalResponse rest with
        | .ok (records, code) => .ok (out ++ records, code)
        | .error e => .error e
    else if jsStrEq event.type "values" then
      runJsonModeLoop (some event.payload) rest
    else if jsStrEq event.type "error" then
      match jsField event.payload "message" with
      | none => .error ()
      | some msg => .ok ([OutputRecord.error ErrorCode.SERVER_ERROR msg], exitCodes.serverError)
    else runJsonModeLoop finalResponse rest

/-! Specification-side helper definitions used to state and prove the
claims. -/

/-- Specification helper: the complete (newline-terminated) lines of a
character stream, in order, together with the trailing partial line. -/
def linesAndRest : List Char → List (List Char) × List Char
  | [] => ([], [])
  | c :: rest =>
    let r := linesAndRest rest
    if c = '\n' then ([] :: r.1, r.2)
    else
      match r.1 with
      | [] => ([], c :: r.2)
      | l :: ls => ((c :: l) :: ls, r.2)

/-- Specification helper: the events contributed by the complete lines of a
stream, for a given per-line decoder. -/
def completeLineEvents (f : List Char → List StreamEvent) (s : List Char) : List StreamEvent :=
  ((linesAndRest s).1.map f).flatten

/-- Specification helper: the events contributed by flushing a trailing
partial line at end of stream (a newline is appended unless the partial
line is blank). -/
def finalFlushEvents (f : List Char → List StreamEvent) (r : List Char) : List StreamEvent :=
  if allWs r then [] else completeLineEvents f (r ++ ['\n'])

/-- Specification helper: the payload of the last `values` event of an
event sequence, if any. -/
def lastValuesPayload (events : List StreamEvent) : Option JsValue :=
  ((events.filter (fun e => jsStrEq e.type "values")).map StreamEvent.payload).getLast?

/-! Helper lemmas about the classifier. -/

/-- Characterization of the strict-equality test against `true`. -/
theorem jsIsTrue_iff (v : JsValue) : jsIsTrue v = true ↔ v = JsValue.bool true := by
  cases v <;> simp [jsIsTrue]

/-- Characterization of the strict-equality test against `null`. -/
theorem jsIsNull_false_iff (v : JsValue) : jsIsNull v = false ↔ v ≠ JsValue.null := by
  cases v <;> simp [jsIsNull]

/-- The status-code block returns one of three fixed mappings or passes. -/
theorem statusFirst_shape (st : Option Int) :
    statusFirst st = none ∨ statusFirst st = some authFailedMapping ∨
    statusFirst st = some rateLimitedMapping ∨
    ∃ n, statusFirst st = some (serverStatusMapping n) := by
  match st with
  | none => exact Or.inl rfl
  | some n =>
    simp only [statusFirst]
    split_ifs with h1 h2 h3
    · exact Or.inr (Or.inl rfl)
    · exact Or.inr (Or.inr (Or.inl rfl))
    · exact Or.inr (Or.inr (Or.inr ⟨n, rfl⟩))
    · exact Or.inl rfl

/-- The message block returns one of the six fixed mappings. -/
theorem classifyFromError_shape (e : JsError) :
    classifyFromError e = networkErrorMapping ∨ classifyFromError e = authFailedMapping ∨
    classifyFromError e = rateLimitedMapping ∨ classifyFromError e = timeoutMapping ∨
    (∃ s, classifyFromError e = serverMessageMapping s) ∨
    (∃ s, classifyFromError e = streamInterruptedMapping s) := by
  match e with
  | .nonError => exact Or.inr (Or.inr (Or.inr (Or.inr (Or.inr ⟨_, rfl⟩))))
  | .err n m =>
    simp only [classifyFromError]
    split_ifs with h1 h2 h3 h4 h5
    · exact Or.inl rfl
    · exact Or.inr (Or.inl rfl)
    · exact Or.inr (Or.inr (Or.inl rfl))
    · exact Or.inr (Or.inr (Or.inr (Or.inl rfl)))
    · exact Or.inr (Or.inr (Or.inr (Or.inr (Or.inl ⟨m, rfl⟩))))
    · exact Or.inr (Or.inr (Or.inr (Or.inr (Or.inr ⟨m, rfl⟩))))

/-- The classifier returns one of the six codes, each with its fixed exit
code. -/
theorem classifyError_shape (e : JsError) (st : Option Int) :
    ((classifyError e st).code = ErrorCode.AUTH_FAILED ∧ (classifyError e st).exitCode = 2) ∨
    ((classifyError e st).code = ErrorCode.NETWORK_ERROR ∧ (classifyError e st).exitCode = 1) ∨
    ((classifyError e st).code = ErrorCode.RATE_LIMITED ∧ (classifyError e st).exitCode = 3) ∨
    ((classifyError e st).code = ErrorCode.TIMEOUT ∧ (classifyError e st).exitCode = 4) ∨
    ((classifyError e st).code = ErrorCode.SERVER_ERROR ∧ (classifyError e st).exitCode = 5) ∨
    ((classifyError e st).code = ErrorCode.STREAM_INTERRUPTED ∧
      (classifyError e st).exitCode = 1) := by
  unfold classifyError
  rcases statusFirst_shape st with h | h | h | ⟨n, h⟩ <;> rw [h]
  · rcases classifyFromError_shape e with h2 | h2 | h2 | h2 | ⟨s, h2⟩ | ⟨s, h2⟩ <;> rw [h2]
    · exact Or.inr (Or.inl ⟨rfl, rfl⟩)
    · exact Or.inl ⟨rfl, rfl⟩
    · exact Or.inr (Or.inr (Or.inl ⟨rfl, rfl⟩))
    · exact Or.inr (Or.inr (Or.inr (Or.inl ⟨rfl, rfl⟩)))
    · exact Or.inr (Or.inr (Or.inr (Or.inr (Or.inl ⟨rfl, rfl⟩))))
    · exact Or.inr (Or.inr (Or.inr (Or.inr (Or.inr ⟨rfl, rfl⟩))))
  · exact Or.inl ⟨rfl, rfl⟩
  · exact Or.inr (Or.inr (Or.inl ⟨rfl, rfl⟩))
  · exact Or.inr (Or.inr (Or.inr (Or.inr (Or.inl ⟨rfl, rfl⟩))))

/-- C5: a supplied status code takes precedence over message inspection in
classifyError: status 401 or 403 yields AUTH_FAILED with exit code 2 for
every error value (in particular one whose message contains "timeout"),
status 429 yields RATE_LIMITED, and any status at least 500 yields
SERVER_ERROR, regardless of message content. -/
theorem C5_status_precedence (e : JsError) (st : Int) :
    ((st = 401 ∨ st = 403) → classifyError e (some st) = authFailedMapping) ∧
    (st = 429 → classifyError e (some st) = rateLimitedMapping) ∧
    (500 ≤ st → classifyError e (some st) = serverStatusMapping st) ∧
    authFailedMapping.code = ErrorCode.AUTH_FAILED ∧ authFailedMapping.exitCode = 2 ∧
    rateLimitedMapping.code = ErrorCode.RATE_LIMITED ∧
    (serverStatusMapping st).code = ErrorCode.SERVER_ERROR := by
  refine ⟨?_, ?_, ?_, rfl, rfl, rfl, rfl⟩
  · rintro (rfl | rfl) <;> rfl
  · rintro rfl; rfl
  · intro h
    have h1 : ¬((st : Int) = 401 ∨ st = 403) := by omega
    have h2 : (st : Int) ≠ 429 := by omega
    simp only [classifyError, statusFirst]
    rw [if_neg h1, if_neg h2, if_pos h]

/-- Witness for C5: with the message "timeout", status 401 still classifies
as AUTH_FAILED, status 429 as RATE_LIMITED, status 503 as SERVER_ERROR. -/
theorem C5_status_precedence_witness :
    classifyError (.err "Error" "timeout") (some 401) = authFailedMapping ∧
    classifyError (.err "Error" "timeout") (some 429) = rateLimitedMapping ∧
    classifyError (.err "Error" "timeout") (some 503) = serverStatusMapping 503 :=
  ⟨(C5_status_precedence (.err "Error" "timeout") 401).1 (Or.inl rfl),
   (C5_status_precedence (.err "Error" "timeout") 429).2.1 rfl,
   (C5_status_precedence (.err "Error" "timeout") 503).2.2.1 (by norm_num)⟩

/-- C9: classifyError is total over arbitrary inputs: for every error value
(Error instance or not) and every optional status code it returns one of
the six taxonomy codes with an exit code in {1,2,3,4,5}, never the success
exit code 0; and a non-Error input with no status code yields
STREAM_INTERRUPTED with exit code 1 and the message "Unknown error
occurred". -/
theorem C9_classifier_total :
    (∀ (e : JsError) (st : Option Int),
      ((classifyError e st).code = ErrorCode.AUTH_FAILED ∧ (classifyError e st).exitCode = 2) ∨
      ((classifyError e st).code = ErrorCode.NETWORK_ERROR ∧ (classifyError e st).exitCode = 1) ∨
      ((classifyError e st).code = ErrorCode.RATE_LIMITED ∧ (classifyError e st).exitCode = 3) ∨
      ((classifyError e st).code = ErrorCode.TIMEOUT ∧ (classifyError e st).exitCode = 4) ∨
      ((classifyError e st).code = ErrorCode.SERVER_ERROR ∧ (classifyError e st).exitCode = 5) ∨
      ((classifyError e st).code = ErrorCode.STREAM_INTERRUPTED ∧
        (classifyError e st).exitCode = 1)) ∧
    (∀ (e : JsError) (st : Option Int), 1 ≤ (classifyError e st).exitCode ∧
      (classifyError e st).exitCode ≤ 5 ∧ (classifyError e st).exitCode ≠ exitCodes.success) ∧
    classifyError JsError.nonError none = streamInterruptedMapping "Unknown error occurred" ∧
    (streamInterruptedMapping "Unknown error occurred").code = ErrorCode.STREAM_INTERRUPTED ∧
    (streamInterruptedMapping "Unknown error occurred").exitCode = 1 ∧
    (streamInterruptedMapping "Unknown error occurred").message = "Unknown error occurred" := by
  refine ⟨classifyError_shape, ?_, rfl, rfl, rfl, rfl⟩
  intro e st
  have hs : exitCodes.success = 0 := rfl
  rcases classifyError_shape e st with ⟨_, h⟩ | ⟨_, h⟩ | ⟨_, h⟩ | ⟨_, h⟩ | ⟨_, h⟩ | ⟨_, h⟩ <;>
    rw [h] <;> rw [hs] <;> omega

/-- C8 counterexample: an error whose message contains both "timeout" and
the 5xx marker "500", with no status code and no earlier-row marker,
classifies as TIMEOUT (exit 4), not SERVER_ERROR (exit 5): in the code the
message-based 5xx check runs after the timeout check, contrary to the
claimed row order. -/
theorem C8_message_precedence_counterexample :
    jsIncludes (jsToLower "request timeout after HTTP 500") "500" = true ∧
    jsIncludes (jsToLower "request timeout after HTTP 500") "429" = false ∧
    jsIncludes (jsToLower "request timeout after HTTP 500") "rate limit" = false ∧
    classifyError (.err "Error" "request timeout after HTTP 500") none = timeoutMapping ∧
    timeoutMapping.code = ErrorCode.TIMEOUT ∧ timeoutMapping.exitCode = 4 ∧
    ErrorCode.TIMEOUT ≠ ErrorCode.SERVER_ERROR :=
  ⟨rfl, rfl, rfl, rfl, rfl, rfl, by decide⟩

/-- C8 amended: SERVER_ERROR (exit 5, recoverable) results whenever the
status code is at least 500; from the message alone, the 5xx markers
"500"/"502"/"503" produce SERVER_ERROR only when no status-code row and no
earlier message row fired, and the message row order is network-failure,
auth, rate-limit, then timeout/abort before the 5xx markers. -/
theorem C8_server_error_row_amended :
    (∀ (e : JsError) (st : Int), 500 ≤ st →
      classifyError e (some st) = serverStatusMapping st ∧
      (serverStatusMapping st).code = ErrorCode.SERVER_ERROR ∧
      (serverStatusMapping st).exitCode = 5 ∧ (serverStatusMapping st).recoverable = true) ∧
    (∀ (n m : String),
      (jsIncludes (jsToLower m) "500" || jsIncludes (jsToLower m) "502" ||
        jsIncludes (jsToLower m) "503") = true →
      jsIncludes (jsToLower m) "fetch failed" = false →
      jsIncludes (jsToLower m) "econnrefused" = false →
      jsIncludes (jsToLower m) "network" = false →
      jsIncludes (jsToLower m) "enotfound" = false →
      jsIncludes (jsToLower m) "401" = false →
      jsIncludes (jsToLower m) "unauthorized" = false →
      jsIncludes (jsToLower m) "429" = false →
      jsIncludes (jsToLower m) "rate limit" = false →
      n ≠ "AbortError" →
      jsIncludes (jsToLower m) "timeout" = false →
      jsIncludes (jsToLower m) "aborted" = false →
      classifyError (.err n m) none = serverMessageMapping m ∧
      (serverMessageMapping m).code = ErrorCode.SERVER_ERROR ∧
      (serverMessageMapping m).exitCode = 5 ∧ (serverMessageMapping m).recoverable = true) := by
  constructor
  · intro e st h
    refine ⟨?_, rfl, rfl, rfl⟩
    have h1 : ¬((st : Int) = 401 ∨ st = 403) := by omega
    have h2 : (st : Int) ≠ 429 := by omega
    simp only [classifyError, statusFirst]
    rw [if_neg h1, if_neg h2, if_pos h]
  · intro n m h5xx hf he hn hen h401 hu h429 hr hab ht hbd
    refine ⟨?_, rfl, rfl, rfl⟩
    show classifyFromError (.err n m) = serverMessageMapping m
    simp only [classifyFromError, hf, he, hn, hen, h401, hu, h429, hr, ht, hbd, h5xx,
      Bool.or_self, Bool.or_false, Bool.false_or, decide_eq_false hab, Bool.or_true,
      Bool.true_or]
    simp

/-- Witness for C8: a status of 503 wins even with a "timeout" message, and
a pure 5xx message with no earlier marker classifies as SERVER_ERROR. -/
theorem C8_server_error_row_witness :
    classifyError (.err "Error" "timeout") (some 503) = serverStatusMapping 503 ∧
    classifyError (.err "Error" "got http 502 bad gateway") none =
      serverMessageMapping "got http 502 bad gateway" :=
  ⟨(C8_server_error_row_amended.1 (.err "Error" "timeout") 503 (by norm_num)).1,
   (C8_server_error_row_amended.2 "Error" "got http 502 bad gateway"
      rfl rfl rfl rfl rfl rfl rfl rfl rfl (by decide) rfl rfl).1⟩

/-- Characterization of the strict-equality test against `null`, positive
form. -/
theorem jsIsNull_true_iff (v : JsValue) : jsIsNull v = true ↔ v = JsValue.null := by
  cases v <;> simp [jsIsNull]

/-- C4: isDistributedResponse data is true if and only if data is a
non-null object value whose distributed field is strictly true and whose
thread_id field is a string of length between 1 and 256; with exhaustive
boundary checks at lengths 0, 1, 256 and 257, a non-string thread_id,
null, undefined, and non-object values. -/
theorem C4_isDistributedResponse_iff :
    (∀ data : JsValue,
      isDistributedResponse data = true ↔
        (isObjectType data = true ∧ data ≠ JsValue.null ∧
         jsLookup data "distributed" = JsValue.bool true ∧
         ∃ s, jsLookup data "thread_id" = JsValue.str s ∧ 1 ≤ s.length ∧ s.length ≤ 256)) ∧
    isDistributedResponse (.obj [("distributed", .bool true), ("thread_id", .str "")]) = false ∧
    isDistributedResponse (.obj [("distributed", .bool true),
      ("thread_id", .str (String.mk (List.replicate 1 'a')))]) = true ∧
    isDistributedResponse (.obj [("distributed", .bool true),
      ("thread_id", .str (String.mk (List.replicate 256 'a')))]) = true ∧
    isDistributedResponse (.obj [("distributed", .bool true),
      ("thread_id", .str (String.mk (List.replicate 257 'a')))]) = false ∧
    isDistributedResponse (.obj [("distributed", .bool true), ("thread_id", .num 7)]) = false ∧
    isDistributedResponse JsValue.null = false ∧
    isDistributedResponse JsValue.undef = false ∧
    isDistributedResponse (JsValue.str "x") = false ∧
    isDistributedResponse (JsValue.num 1) = false ∧
    isDistributedResponse (JsValue.bool true) = false := by
  refine ⟨?_, rfl, rfl, rfl, rfl, rfl, rfl, rfl, rfl, rfl, rfl⟩
  intro data
  cases data with
  | undef => simp [isDistributedResponse, isObjectType]
  | null => simp [isDistributedResponse, jsIsNull]
  | bool b => simp [isDistributedResponse, isObjectType]
  | num n => simp [isDistributedResponse, isObjectType]
  | str s => simp [isDistributedResponse, isObjectType]
  | arr es => simp [isDistributedResponse, isObjectType, jsIsNull, jsLookup, jsIsTrue]
  | obj fields =>
    rcases hd : jsLookup (.obj fields) "distributed" with _ | _ | b | _ | _ | _ | _ <;>
      simp only [isDistributedResponse, isObjectType, jsIsNull, Bool.not_true, Bool.false_or,
        if_false, hd, jsIsTrue, Bool.not_false, if_true] <;>
      try simp [hd]
    cases b with
    | false => simp [hd]
    | true =>
      simp only [Bool.not_true, if_false, ne_eq, reduceCtorEq, not_false_iff, true_and, hd]
      rcases htid : jsLookup (.obj fields) "thread_id" with _ | _ | _ | _ | t | _ | _ <;>
        simp only [htid] <;> try simp
      omega

/-- C2 counterexample: the JSON payload `"ab"` is valid JSON that is not a
2-element array (it is a string), yet parseEvent does not skip it: string
values are iterable, so the destructuring produces the bogus event
`{type: "a", payload: "b"}` instead of `undefined`. -/
theorem C2_wrong_shape_counterexample :
    jsonParse "\"ab\"" = some (JsValue.str "ab") ∧
    (∀ elems, JsValue.str "ab" ≠ JsValue.arr elems) ∧
    parseEvent "\"ab\"" = some ⟨JsValue.str "a", JsValue.str "b"⟩ ∧
    parseEvent "\"ab\"" ≠ none := by
  refine ⟨rfl, ?_, rfl, ?_⟩
  · intro elems h; cases h
  · intro h
    rw [show parseEvent "\"ab\"" = some ⟨JsValue.str "a", JsValue.str "b"⟩ from rfl] at h
    exact Option.noConfusion h

/-- C2 amended: both decoders are total (they return an option, never
raising); invalid JSON yields a skip for both; parseDistributedEvent skips
every wrong shape (non-array values outside the error format, and arrays
shorter than two); parseEvent skips exactly the non-iterable parse results
(objects, numbers, booleans, null), while iterable wrong shapes (strings
and short arrays) destructure positionally instead of being skipped. -/
theorem C2_decoder_totality_amended :
    (∀ s : String, jsonParse s = none → parseEvent s = none ∧ parseDistributedEvent s = none) ∧
    (∀ (s : String) (fields : List (String × JsValue)), jsonParse s = some (.obj fields) →
      isDistributedError (.obj fields) = false →
      parseEvent s = none ∧ parseDistributedEvent s = none) ∧
    (∀ (s : String) (n : Int), jsonParse s = some (.num n) →
      parseEvent s = none ∧ parseDistributedEvent s = none) ∧
    (∀ (s : String) (b : Bool), jsonParse s = some (.bool b) →
      parseEvent s = none ∧ parseDistributedEvent s = none) ∧
    (∀ s : String, jsonParse s = some .null →
      parseEvent s = none ∧ parseDistributedEvent s = none) ∧
    (∀ (s t : String), jsonParse s = some (.str t) → parseDistributedEvent s = none) ∧
    (∀ (s : String) (elems : List JsValue), jsonParse s = some (.arr elems) →
      elems.length < 2 → parseDistributedEvent s = none) := by
  refine ⟨?_, ?_, ?_, ?_, ?_, ?_, ?_⟩
  · intro s h; exact ⟨by simp [parseEvent, h], by simp [parseDistributedEvent, h]⟩
  · intro s fields h hde
    exact ⟨by simp [parseEvent, h, destructure2],
      by simp [parseDistributedEvent, h, hde]⟩
  · intro s n h
    exact ⟨by simp [parseEvent, h, destructure2],
      by simp [parseDistributedEvent, h, isDistributedError, isObjectType]⟩
  · intro s b h
    exact ⟨by simp [parseEvent, h, destructure2],
      by simp [parseDistributedEvent, h, isDistributedError, isObjectType]⟩
  · intro s h
    exact ⟨by simp [parseEvent, h, destructure2],
      by simp [parseDistributedEvent, h, isDistributedError, jsIsNull]⟩
  · intro s t h
    simp [parseDistributedEvent, h, isDistributedError, isObjectType]
  · intro s elems h hlen
    have hde : isDistributedError (.arr elems) = false := by
      simp [isDistributedError, isObjectType, jsIsNull, jsLookup]
    simp only [parseDistributedEvent, h, hde, Bool.false_eq_true, if_false]
    rw [if_neg (by omega)]

/-- Witness for C2 amended: invalid JSON is skipped by both decoders, the
empty object is skipped by both, and a 1-element array is skipped by the
distributed decoder. -/
theorem C2_decoder_totality_witness :
    (parseEvent "not json" = none ∧ parseDistributedEvent "not json" = none) ∧
    (parseEvent "\x7b\x7d" = none ∧ parseDistributedEvent "\x7b\x7d" = none) ∧
    parseDistributedEvent "[1]" = none :=
  ⟨C2_decoder_totality_amended.1 "not json" rfl,
   C2_decoder_totality_amended.2.1 "\x7b\x7d" [] rfl rfl,
   C2_decoder_totality_amended.2.2.2.2.2.2 "[1]" [.num 1] rfl (by simp)⟩

/-- C7 counterexample: on a content-block list whose first block is marked
`type: "image"`, extractContent still returns the block's text field
("hello"), not the empty string: the code never consults the type
discriminator. -/
theorem C7_type_discriminator_counterexample :
    extractContent (.arr [.obj [("type", .str "image"), ("text", .str "hello")]]) =
      JsValue.str "hello" ∧
    jsLookup (.obj [("type", .str "image"), ("text", .str "hello")]) "type" =
      JsValue.str "image" ∧
    JsValue.str "image" ≠ JsValue.str "text" ∧
    JsValue.str "hello" ≠ JsValue.str "" := by
  refine ⟨rfl, rfl, by simp, by simp⟩

/-- C7 amended: extractContent is pure and total; string content is
returned unchanged; for a block list it returns the optional-chain lookup
of the first block's text field regardless of any type discriminator,
yielding undefined (not the empty string) when the list is empty or the
text field is absent; undefined content yields undefined. -/
theorem C7_extractContent_amended :
    (∀ s, extractContent (JsValue.str s) = JsValue.str s) ∧
    extractContent JsValue.undef = JsValue.undef ∧
    extractContent JsValue.null = JsValue.undef ∧
    (∀ first rest, extractContent (JsValue.arr (first :: rest)) = jsOptField first "text") ∧
    extractContent (JsValue.arr []) = JsValue.undef := by
  refine ⟨fun s => rfl, rfl, rfl, ?_, rfl⟩
  intro first rest
  cases first <;> rfl

/-- C6: when the 202 body is not valid JSON, or parses to a value rejected
by isDistributedResponse, handleDistributedMode ends in a
malformed-distributed-response error: the thread-stream GET request is
never issued (so no events are produced), and the abort path is not taken
either. -/
theorem C6_malformed_handshake_no_get (rawText : String) (alreadyAborted : Bool)
    (h : jsonParse rawText = none ∨
      ∃ v, jsonParse rawText = some v ∧ isDistributedResponse v = false) :
    (∃ msg, handleDistributedMode rawText alreadyAborted =
      DistHandshakeOutcome.malformedResponse msg) ∧
    (∀ tid, handleDistributedMode rawText alreadyAborted ≠
      DistHandshakeOutcome.threadStreamRequest tid) ∧
    handleDistributedMode rawText alreadyAborted ≠ DistHandshakeOutcome.abortError := by
  rcases h with h | ⟨v, hv, hfalse⟩
  · refine ⟨⟨"Invalid JSON in distributed response", ?_⟩, ?_, ?_⟩ <;>
      simp [handleDistributedMode, h]
  · refine ⟨⟨"Invalid distributed response: missing or invalid thread_id", ?_⟩, ?_, ?_⟩ <;>
      simp [handleDistributedMode, hv, hfalse]

/-- Witness for C6: the body "not json" (invalid JSON) and the body of an
empty object (valid JSON failing validation) both end in the malformed
error without a GET. -/
theorem C6_malformed_handshake_witness :
    ((∃ msg, handleDistributedMode "not json" false =
        DistHandshakeOutcome.malformedResponse msg) ∧
      (∀ tid, handleDistributedMode "not json" false ≠
        DistHandshakeOutcome.threadStreamRequest tid) ∧
      handleDistributedMode "not json" false ≠ DistHandshakeOutcome.abortError) ∧
    ((∃ msg, handleDistributedMode "\x7b\x7d" false =
        DistHandshakeOutcome.malformedResponse msg) ∧
      (∀ tid, handleDistributedMode "\x7b\x7d" false ≠
        DistHandshakeOutcome.threadStreamRequest tid) ∧
      handleDistributedMode "\x7b\x7d" false ≠ DistHandshakeOutcome.abortError) :=
  ⟨C6_malformed_handshake_no_get "not json" false (Or.inl rfl),
   C6_malformed_handshake_no_get "\x7b\x7d" false (Or.inr ⟨.obj [], rfl, rfl⟩)⟩

/-! Lemmas about line reassembly. -/

/-- One-layer unfolding of `linesAndRest` on a cons cell. -/
theorem linesAndRest_cons (c : Char) (rest : List Char) :
    linesAndRest (c :: rest) =
      if c = '\n' then ([] :: (linesAndRest rest).1, (linesAndRest rest).2)
      else
        match (linesAndRest rest).1 with
        | [] => ([], c :: (linesAndRest rest).2)
        | l :: ls => ((c :: l) :: ls, (linesAndRest rest).2) := rfl

/-- One-layer unfolding of `splitOnNl` on a cons cell. -/
theorem splitOnNl_cons (c : Char) (rest : List Char) :
    splitOnNl (c :: rest) =
      if c = '\n' then [] :: splitOnNl rest
      else
        match splitOnNl rest with
        | [] => [[c]]
        | h :: t => (c :: h) :: t := rfl

/-- The source split (`buffer.split('\n')`) is the complete lines followed
by the trailing partial line. -/
theorem splitOnNl_eq_linesAndRest (l : List Char) :
    splitOnNl l = (linesAndRest l).1 ++ [(linesAndRest l).2] := by
  induction l with
  | nil => rfl
  | cons c rest ih =>
    rw [splitOnNl_cons, linesAndRest_cons]
    by_cases hc : c = '\n'
    · rw [if_pos hc, if_pos hc, ih]
      simp
    · rw [if_neg hc, if_neg hc, ih]
      cases hr : (linesAndRest rest).1 with
      | nil => simp [hr]
      | cons l0 ls => simp [hr]

/-- A buffer ending in a newline has an empty trailing partial line and at
least one complete line. -/
theorem endsWithNl_linesAndRest (l : List Char) (h : endsWithNl l = true) :
    (linesAndRest l).2 = [] ∧ (linesAndRest l).1 ≠ [] := by
  induction l with
  | nil => cases h
  | cons c rest ih =>
    cases rest with
    | nil =>
      have hc : c = '\n' := by simpa [endsWithNl] using h
      subst hc
      simp [linesAndRest]
    | cons d rest2 =>
      have h2 : endsWithNl (d :: rest2) = true := by simpa [endsWithNl] using h
      obtain ⟨hrem, hlines⟩ := ih h2
      rw [linesAndRest_cons]
      by_cases hc : c = '\n'
      · rw [if_pos hc]; exact ⟨hrem, by simp⟩
      · rw [if_neg hc]
        cases hr : (linesAndRest (d :: rest2)).1 with
        | nil => exact absurd hr hlines
        | cons l0 ls => simp [hrem]

/-- The trailing partial line never contains a newline. -/
theorem rem_no_newline (l : List Char) : '\n' ∉ (linesAndRest l).2 := by
  induction l with
  | nil => simp [linesAndRest]
  | cons c rest ih =>
    rw [linesAndRest_cons]
    by_cases hc : c = '\n'
    · rw [if_pos hc]; exact ih
    · rw [if_neg hc]
      cases hr : (linesAndRest rest).1 with
      | nil =>
        simp only [List.mem_cons, not_or]
        exact ⟨fun h => hc h.symm, ih⟩
      | cons l0 ls => exact ih

/-- A newline-free buffer is one single partial line. -/
theorem no_newline_linesAndRest (l : List Char) (h : '\n' ∉ l) : linesAndRest l = ([], l) := by
  induction l with
  | nil => rfl
  | cons c rest ih =>
    have hc : ¬(c = '\n') := fun e => h (by simp [e])
    have h2 : '\n' ∉ rest := fun m => h (List.mem_cons_of_mem _ m)
    rw [linesAndRest_cons, ih h2]
    rw [if_neg hc]

/-- Appending a newline to a newline-free buffer closes it into one
complete line. -/
theorem no_newline_append_nl (r : List Char) (h : '\n' ∉ r) :
    linesAndRest (r ++ ['\n']) = ([r], []) := by
  induction r with
  | nil => rfl
  | cons c rest ih =>
    have hc : ¬(c = '\n') := fun e => h (by simp [e])
    have h2 : '\n' ∉ rest := fun m => h (List.mem_cons_of_mem _ m)
    rw [List.cons_append, linesAndRest_cons, ih h2]
    rw [if_neg hc]

/-- Complete lines and trailing partial line of an appended stream: the
complete lines of the first part, then those of the carried-over remainder
followed by the second part. -/
theorem linesAndRest_append (a b : List Char) :
    linesAndRest (a ++ b) =
      ((linesAndRest a).1 ++ (linesAndRest ((linesAndRest a).2 ++ b)).1,
       (linesAndRest ((linesAndRest a).2 ++ b)).2) := by
  induction a with
  | nil => simp [linesAndRest]
  | cons c a' ih =>
    rw [List.cons_append, linesAndRest_cons, linesAndRest_cons, ih]
    by_cases hc : c = '\n'
    · rw [if_pos hc, if_pos hc]
      simp
    · rw [if_neg hc, if_neg hc]
      cases hr : (linesAndRest a').1 with
      | nil =>
        simp only [hr, List.nil_append]
        rw [List.cons_append, linesAndRest_cons]
        rw [if_neg hc]
      | cons l0 ls =>
        simp [hr, List.cons_append]

/-- In an all-whitespace buffer, every complete line and the trailing
partial line are all-whitespace. -/
theorem allWs_linesAndRest (l : List Char) (h : allWs l = true) :
    (∀ p ∈ (linesAndRest l).1, allWs p = true) ∧ allWs (linesAndRest l).2 = true := by
  induction l with
  | nil => simp [linesAndRest, allWs]
  | cons c rest ih =>
    rw [allWs, List.all_cons, Bool.and_eq_true] at h
    obtain ⟨h1, h2⟩ := h
    obtain ⟨ihp, ihr⟩ := ih h2
    rw [linesAndRest_cons]
    by_cases hnl : c = '\n'
    · rw [if_pos hnl]
      refine ⟨?_, ihr⟩
      intro p hp
      rcases List.mem_cons.mp hp with rfl | hp
      · rfl
      · exact ihp p hp
    · rw [if_neg hnl]
      cases hr : (linesAndRest rest).1 with
      | nil =>
        refine ⟨by simp, ?_⟩
        rw [allWs, List.all_cons, Bool.and_eq_true]
        exact ⟨h1, ihr⟩
      | cons l0 ls =>
        have hl0 : allWs l0 = true := ihp l0 (by rw [hr]; exact List.mem_cons_self _ _)
        refine ⟨?_, ihr⟩
        intro p hp
        rcases List.mem_cons.mp hp with rfl | hp
        · rw [allWs, List.all_cons, Bool.and_eq_true]
          exact ⟨h1, hl0⟩
        · exact ihp p (by rw [hr]; exact List.mem_cons_of_mem _ hp)

/-- The split-line loop on lines-plus-final-partial: all complete lines are
processed, the final part is processed exactly when the buffer ended with a
newline, and it is the remainder otherwise. -/
theorem processStreamLines_concat (f : List Char → List StreamEvent) (e : Bool)
    (ls : List (List Char)) (last : List Char) :
    processStreamLines f e (ls ++ [last]) =
      ((ls.map f).flatten ++ (if e then f last else []), if e then [] else last) := by
  induction ls with
  | nil => cases e <;> simp [processStreamLines]
  | cons p ps ih =>
    cases ps with
    | nil =>
      cases e <;> simp [processStreamLines]
    | cons q qs =>
      have hstep : processStreamLines f e (p :: q :: (qs ++ [last])) =
          (f p ++ (processStreamLines f e (q :: (qs ++ [last]))).1,
           (processStreamLines f e (q :: (qs ++ [last]))).2) := rfl
      simp only [List.cons_append] at ih ⊢
      rw [hstep, ih]
      simp

/-- Characterization of both extraction loops: the events of the complete
lines, and the trailing partial line as remainder (for a line handler that
ignores the empty line). -/
theorem processStreamLines_characterize (f : List Char → List StreamEvent)
    (hf0 : f [] = []) (buffer : List Char) :
    processStreamLines f (endsWithNl buffer) (splitOnNl buffer) =
      (completeLineEvents f buffer, (linesAndRest buffer).2) := by
  rw [splitOnNl_eq_linesAndRest, processStreamLines_concat]
  by_cases he : endsWithNl buffer = true
  · obtain ⟨hrem, -⟩ := endsWithNl_linesAndRest buffer he
    rw [he, hrem]
    simp [completeLineEvents, hf0]
  · have he' : endsWithNl buffer = false := Bool.eq_false_iff.mpr he
    rw [he']
    simp [completeLineEvents]

/-- Blank (all-whitespace) lines produce no synchronous events. -/
theorem syncLineEvents_ws (l : List Char) (h : allWs l = true) : syncLineEvents l = [] := by
  rw [syncLineEvents, if_pos h]

/-- An all-whitespace buffer contributes no complete-line events. -/
theorem completeLineEvents_ws (buffer : List Char) (h : allWs buffer = true) :
    completeLineEvents syncLineEvents buffer = [] := by
  rw [completeLineEvents, List.flatten_eq_nil_iff]
  intro l hl
  rcases List.mem_map.mp hl with ⟨p, hp, rfl⟩
  exact syncLineEvents_ws p ((allWs_linesAndRest buffer h).1 p hp)

/-- The synchronous session loop computes the complete-line events of the
whole stream seen so far, followed by the final flush of the trailing
partial line. -/
theorem parseEventStreamGo_spec (chunks : List (List Char)) :
    ∀ buffer, parseEventStreamGo buffer chunks =
      completeLineEvents syncLineEvents (buffer ++ chunks.flatten) ++
        finalFlushEvents syncLineEvents (linesAndRest (buffer ++ chunks.flatten)).2 := by
  induction chunks with
  | nil =>
    intro buffer
    simp only [List.flatten_nil, List.append_nil, parseEventStreamGo]
    by_cases hw : allWs buffer = true
    · rw [if_pos hw, completeLineEvents_ws buffer hw, finalFlushEvents,
        if_pos ((allWs_linesAndRest buffer hw).2)]
      rfl
    · rw [if_neg hw]
      show (extractEvents (buffer ++ ['\n'])).1 = _
      rw [extractEvents, processStreamLines_characterize syncLineEvents rfl]
      have key : linesAndRest (buffer ++ ['\n']) =
          ((linesAndRest buffer).1 ++ [(linesAndRest buffer).2], []) := by
        rw [linesAndRest_append, no_newline_append_nl _ (rem_no_newline buffer)]
      rw [show ((completeLineEvents syncLineEvents (buffer ++ ['\n']), (linesAndRest (buffer ++ ['\n'])).2)).1 = completeLineEvents syncLineEvents (buffer ++ ['\n']) from rfl]
      rw [completeLineEvents, key]
      rw [finalFlushEvents]
      by_cases hwr : allWs (linesAndRest buffer).2 = true
      · rw [if_pos hwr]
        simp [completeLineEvents, syncLineEvents_ws _ hwr]
      · rw [if_neg hwr]
        rw [show completeLineEvents syncLineEvents ((linesAndRest buffer).2 ++ ['\n']) =
            ((linesAndRest ((linesAndRest buffer).2 ++ ['\n'])).1.map syncLineEvents).flatten
          from rfl]
        rw [no_newline_append_nl _ (rem_no_newline buffer)]
        simp
        rfl
  | cons c cs ih =>
    intro buffer
    simp only [parseEventStreamGo]
    rw [show extractEvents (buffer ++ c) =
        (completeLineEvents syncLineEvents (buffer ++ c), (linesAndRest (buffer ++ c)).2) from
      processStreamLines_characterize syncLineEvents rfl (buffer ++ c)]
    rw [ih]
    have happ := linesAndRest_append (buffer ++ c) cs.flatten
    simp only [List.flatten_cons, ← List.append_assoc]
    rw [show completeLineEvents syncLineEvents (buffer ++ c ++ cs.flatten) =
        ((linesAndRest (buffer ++ c ++ cs.flatten)).1.map syncLineEvents).flatten from rfl]
    rw [happ, completeLineEvents, completeLineEvents]
    simp

/-- C1: frame reassembly is chunking-invariant: driving the synchronous
session loop over any chunking of a character stream yields exactly the
same ordered event sequence as processing the whole stream as one chunk. -/
theorem C1_frame_reassembly_chunking_invariant (chunks : List (List Char)) :
    parseEventStream chunks = parseEventStream [chunks.flatten] := by
  rw [parseEventStream, parseEventStream, parseEventStreamGo_spec chunks [],
    parseEventStreamGo_spec [chunks.flatten] []]
  simp

/-! Lemmas for the distributed done-termination claim. -/

/-- Characterization of the strict-equality test against a string literal. -/
theorem jsStrEq_true_iff (v : JsValue) (s : String) : jsStrEq v s = true ↔ v = JsValue.str s := by
  cases v <;> simp [jsStrEq]

/-- takeUntilDone computes the prefix before the first `done` event, and
reports whether a `done` event occurred. -/
theorem takeUntilDone_spec (es : List StreamEvent) :
    takeUntilDone es =
      (es.takeWhile (fun e => !(jsStrEq e.type "done")),
       es.any (fun e => jsStrEq e.type "done")) := by
  induction es with
  | nil => rfl
  | cons e rest ih =>
    simp only [takeUntilDone]
    by_cases hd : jsStrEq e.type "done" = true
    · rw [if_pos hd]
      simp [List.takeWhile_cons, List.any_cons, hd]
    · have hd' : jsStrEq e.type "done" = false := Bool.eq_false_iff.mpr hd
      rw [if_neg hd, ih]
      simp [List.takeWhile_cons, List.any_cons, hd']

/-- No event kept by takeUntilDone is a `done` event. -/
theorem takeUntilDone_no_done (es : List StreamEvent) :
    ∀ e ∈ (takeUntilDone es).1, jsStrEq e.type "done" = false := by
  rw [takeUntilDone_spec]
  intro e he
  simpa using List.mem_takeWhile_imp he

/-- C3: the distributed event sequence never exposes a `done` event: once a
`done` event is decoded the generator terminates, yielding neither the
`done` event nor any later event, while events decoded before it in the
same chunk are still yielded (the emitted prefix is exactly the events
before the first `done`). -/
theorem C3_done_terminates_stream :
    (∀ chunks, ∀ e ∈ parseDistributedEventStream chunks, jsStrEq e.type "done" = false) ∧
    (∀ buffer chunk chunks,
      ((extractDistributedEvents (buffer ++ chunk)).1.any
        (fun e => jsStrEq e.type "done")) = true →
      parseDistributedEventStreamGo buffer (chunk :: chunks) =
        (extractDistributedEvents (buffer ++ chunk)).1.takeWhile
          (fun e => !(jsStrEq e.type "done"))) := by
  constructor
  · have main : ∀ chunks buffer, ∀ e ∈ parseDistributedEventStreamGo buffer chunks,
        jsStrEq e.type "done" = false := by
      intro chunks
      induction chunks with
      | nil =>
        intro buffer e he
        simp only [parseDistributedEventStreamGo] at he
        by_cases hw : allWs buffer = true
        · rw [if_pos hw] at he; cases he
        · rw [if_neg hw] at he; exact takeUntilDone_no_done _ e he
      | cons c cs ih =>
        intro buffer e he
        simp only [parseDistributedEventStreamGo] at he
        by_cases hs : (takeUntilDone (extractDistributedEvents (buffer ++ c)).1).2 = true
        · rw [if_pos hs] at he; exact takeUntilDone_no_done _ e he
        · rw [if_neg hs] at he
          rcases List.mem_append.mp he with h | h
          · exact takeUntilDone_no_done _ e h
          · exact ih _ e h
    exact fun chunks => main chunks []
  · intro buffer chunk chunks hany
    simp only [parseDistributedEventStreamGo]
    have h2 : (takeUntilDone (extractDistributedEvents (buffer ++ chunk)).1).2 = true := by
      rw [takeUntilDone_spec]; exact hany
    rw [if_pos h2, takeUntilDone_spec]

/-- Witness for C3: a chunk carrying a metadata event, the `[DONE]` marker
and a further values event, followed by one more chunk, yields exactly the
events before the marker. -/
theorem C3_done_terminates_witness :
    parseDistributedEventStreamGo []
        ("data: [\"metadata\", 0]\ndata: [DONE]\ndata: [\"values\", 1]\n".data ::
          ["data: [\"values\", 9]\n".data]) =
      (extractDistributedEvents
          ([] ++ "data: [\"metadata\", 0]\ndata: [DONE]\ndata: [\"values\", 1]\n".data)).1.takeWhile
        (fun e => !(jsStrEq e.type "done")) :=
  C3_done_terminates_stream.2 [] ("data: [\"metadata\", 0]\ndata: [DONE]\ndata: [\"values\", 1]\n".data)
    ["data: [\"values\", 9]\n".data] rfl

/-! Lemmas for the JSON-mode terminal-done claim. -/

/-- Default-aware getLast? on a cons cell. -/
theorem getLast?_getD_cons {α : Type} (x d : α) (l : List α) :
    ((x :: l).getLast?).getD d = (l.getLast?).getD x := by
  cases l with
  | nil => rfl
  | cons y ys =>
    rw [List.getLast?_cons_cons]
    have h : ((y :: ys).getLast?).isSome := List.getLast?_isSome.mpr (by simp)
    obtain ⟨z, hz⟩ := Option.isSome_iff_exists.mp h
    rw [hz]
    rfl

/-- A non-values event does not change the last values payload. -/
theorem lastValuesPayload_cons_not_values (e : StreamEvent) (rest : List StreamEvent)
    (h : jsStrEq e.type "values" = false) :
    lastValuesPayload (e :: rest) = lastValuesPayload rest := by
  rw [lastValuesPayload, lastValuesPayload, List.filter_cons_of_neg (by simp [h])]

/-- A values event supersedes the previous default. -/
theorem lastValuesPayload_cons_values (e : StreamEvent) (rest : List StreamEvent)
    (d : JsValue) (h : jsStrEq e.type "values" = true) :
    (lastValuesPayload (e :: rest)).getD d = (lastValuesPayload rest).getD e.payload := by
  rw [lastValuesPayload, lastValuesPayload, List.filter_cons_of_pos (by simp [h]),
    List.map_cons, getLast?_getD_cons]

/-- A messages-typed event is not values-typed and not error-typed. -/
theorem messages_not_values (e : StreamEvent) (h : jsStrEq e.type "messages" = true) :
    jsStrEq e.type "values" = false := by
  rw [jsStrEq_true_iff] at h
  rw [h]
  simp [jsStrEq]

/-- Structure of a successful JSON-mode loop run with no backend error
event: exit code 0 and chunk records followed by exactly one final done
record carrying the last values payload (or the provided default). -/
theorem runJsonModeLoop_spec (events : List StreamEvent) :
    ∀ (fr : Option JsValue) (records : List OutputRecord) (code : Nat),
      runJsonModeLoop fr events = .ok (records, code) →
      (∀ e ∈ events, jsStrEq e.type "error" = false) →
      code = exitCodes.success ∧
      ∃ chunks, records = chunks ++
          [.done ((lastValuesPayload events).getD (fr.getD placeholderDone))] ∧
        ∀ r ∈ chunks, isDoneRecord r = false ∧ ∃ t, r = OutputRecord.chunk t := by
  induction events with
  | nil =>
    intro fr records code hok hne
    simp only [runJsonModeLoop] at hok
    injection hok with h
    rw [Prod.mk.injEq] at h
    obtain ⟨ha, hb⟩ := h
    subst ha
    subst hb
    exact ⟨rfl, [], by simp [lastValuesPayload], by simp⟩
  | cons e rest ih =>
    intro fr records code hok hne
    have hne_e : jsStrEq e.type "error" = false := hne e (List.mem_cons_self _ _)
    have hne_rest : ∀ x ∈ rest, jsStrEq x.type "error" = false :=
      fun x hx => hne x (List.mem_cons_of_mem _ hx)
    simp only [runJsonModeLoop] at hok
    by_cases hm : jsStrEq e.type "messages" = true
    · rw [if_pos hm] at hok
      cases hidx : jsIndex0 e.payload with
      | none => rw [hidx] at hok; cases hok
      | some first =>
        rw [hidx] at hok
        cases hrec : runJsonModeLoop fr rest with
        | error u => rw [hrec] at hok; cases hok
        | ok pr =>
          obtain ⟨records', code'⟩ := pr
          rw [hrec] at hok
          injection hok with h
          rw [Prod.mk.injEq] at h
          obtain ⟨hrecords, hcode⟩ := h
          obtain ⟨hc0, chunks, hchunks, hprop⟩ := ih fr records' code' hrec hne_rest
          subst hcode
          refine ⟨hc0, (if jsTruthy (extractContent (jsOptField first "content")) = true
            then [OutputRecord.chunk (extractContent (jsOptField first "content"))]
            else []) ++ chunks, ?_, ?_⟩
          · rw [← hrecords, hchunks,
              lastValuesPayload_cons_not_values e rest (messages_not_values e hm)]
            simp [List.append_assoc]
          · intro r hr
            rcases List.mem_append.mp hr with h | h
            · by_cases ht : jsTruthy (extractContent (jsOptField first "content")) = true
              · rw [if_pos ht] at h
                rcases List.mem_singleton.mp h with rfl
                exact ⟨rfl, _, rfl⟩
              · rw [if_neg ht] at h
                cases h
            · exact hprop r h
    · rw [if_neg hm] at hok
      by_cases hv : jsStrEq e.type "values" = true
      · rw [if_pos hv] at hok
        obtain ⟨hc0, chunks, hchunks, hprop⟩ := ih (some e.payload) records code hok hne_rest
        refine ⟨hc0, chunks, ?_, hprop⟩
        rw [hchunks, lastValuesPayload_cons_values e rest _ hv]
        rfl
      · rw [if_neg hv] at hok
        have hne' : ¬(jsStrEq e.type "error" = true) := by rw [hne_e]; simp
        rw [if_neg hne'] at hok
        obtain ⟨hc0, chunks, hchunks, hprop⟩ := ih fr records code hok hne_rest
        have hvv : jsStrEq e.type "values" = false := Bool.eq_false_iff.mpr hv
        refine ⟨hc0, chunks, ?_, hprop⟩
        rw [hchunks, lastValuesPayload_cons_not_values e rest hvv]

/-- C10: in JSON output mode, a stream that completes without a backend
error event and without a thrown failure ends with exactly one terminal
done record and exit code 0; with no values event the done record carries
the placeholder response (a record with an empty messages list), and with
several values events it carries the last one received; every earlier
record is a chunk record. -/
theorem C10_json_mode_terminal_done (events : List StreamEvent) (records : List OutputRecord)
    (code : Nat) (hok : runJsonModeLoop none events = .ok (records, code))
    (hne : ∀ e ∈ events, jsStrEq e.type "error" = false) :
    code = exitCodes.success ∧ code = 0 ∧
    (records.filter isDoneRecord).length = 1 ∧
    records.getLast? = some (.done ((lastValuesPayload events).getD placeholderDone)) ∧
    (∀ r ∈ records.dropLast, ∃ t, r = OutputRecord.chunk t) := by
  obtain ⟨hc, chunks, hrec, hprop⟩ := runJsonModeLoop_spec events none records code hok hne
  simp only [Option.getD_none] at hrec
  subst hrec
  refine ⟨hc, hc, ?_, ?_, ?_⟩
  · rw [List.filter_append]
    have hnilf : chunks.filter isDoneRecord = [] :=
      List.filter_eq_nil_iff.mpr (fun r hr => by simp [(hprop r hr).1])
    rw [hnilf]
    rfl
  · rw [List.getLast?_concat]
  · rw [List.dropLast_concat]
    intro r hr
    exact (hprop r hr).2

/-- Witness for C10: a concrete run with one messages event and two values
events produces one chunk record, then exactly one done record carrying the
last values payload, with exit code 0. -/
theorem C10_json_mode_terminal_done_witness :
    ([OutputRecord.chunk (JsValue.str "Hi"), OutputRecord.done (JsValue.num 2)].filter
        isDoneRecord).length = 1 :=
  (C10_json_mode_terminal_done
    [⟨.str "messages", .arr [.obj [("content", .str "Hi")]]⟩,
     ⟨.str "values", .num 1⟩, ⟨.str "values", .num 2⟩]
    [OutputRecord.chunk (.str "Hi"), OutputRecord.done (.num 2)] 0 rfl
    (by decide)).2.2.1
